import Mathlib

/-!
Verification of the metal.js repository fragment: the `core.js` utility
module and the `DomDelegatedEventHandle` class, shallowly embedded in Lean.
JavaScript objects used as keyed records are modelled as association lists;
listener references are modelled by natural-number identities.
-/

namespace Metal

/-- JS-style property lookup on an object modelled as an association list:
the first binding for the key wins, a missing key yields `none`
(the JS value `undefined`). -/
def alookup {κ α : Type} [DecidableEq κ] : List (κ × α) → κ → Option α
  | [], _ => none
  | p :: rest, k => if p.1 = k then some p.2 else alookup rest k

/-- JS `delete obj[key]`: every binding for the key is dropped. -/
def adelete {κ α : Type} [DecidableEq κ] : List (κ × α) → κ → List (κ × α)
  | [], _ => []
  | p :: rest, k => if p.1 = k then adelete rest k else p :: adelete rest k

/-- JS `obj[key] = v`: the key is bound to `v`, every older binding dropped. -/
def aset {κ α : Type} [DecidableEq κ] (m : List (κ × α)) (k : κ) (v : α) :
    List (κ × α) :=
  (k, v) :: adelete m k

theorem alookup_adelete_self {κ α : Type} [DecidableEq κ]
    (m : List (κ × α)) (k : κ) : alookup (adelete m k) k = none := by
  induction m with
  | nil => rfl
  | cons p rest ih =>
    by_cases hp : p.1 = k
    · simp [adelete, hp, ih]
    · simp [adelete, alookup, hp, ih]

theorem alookup_adelete_ne {κ α : Type} [DecidableEq κ]
    (m : List (κ × α)) (k k' : κ) (h : k' ≠ k) :
    alookup (adelete m k) k' = alookup m k' := by
  induction m with
  | nil => rfl
  | cons p rest ih =>
    by_cases hp : p.1 = k
    · have hk' : ¬ (k = k') := fun hc => h hc.symm
      simp [adelete, alookup, hp, hk', ih]
    · by_cases hq : p.1 = k'
      · simp [adelete, alookup, hp, hq, h, ih]
      · simp [adelete, alookup, hp, hq, ih]

theorem alookup_aset_self {κ α : Type} [DecidableEq κ]
    (m : List (κ × α)) (k : κ) (v : α) : alookup (aset m k v) k = some v := by
  simp [aset, alookup]

theorem alookup_aset_ne {κ α : Type} [DecidableEq κ]
    (m : List (κ × α)) (k k' : κ) (v : α) (h : k' ≠ k) :
    alookup (aset m k v) k' = alookup m k' := by
  have hk : k ≠ k' := fun hc => h hc.symm
  simp [aset, alookup, hk, alookup_adelete_ne m k k' h]

/-- Modelled from the spec: the `array.remove` helper of the metal package is
not under src/; the spec describes the removal as a "linear array
search-and-remove" that removes the stored listener reference from the
bucket's sequence. This removes the first occurrence of `x`, if any. -/
def arrayRemove {α : Type} [DecidableEq α] : List α → α → List α
  | [], _ => []
  | y :: rest, x => if y = x then rest else y :: arrayRemove rest x

/-- One entry of the `delegating` mapping: an object holding a `selectors`
mapping from selector strings to listener buckets (data model, spec section 3). -/
structure DelegEntry where
  selectors : List (String × List Nat)
  deriving DecidableEq

/-- Modelled from the spec: the `domData` per-element side-table accessor is
not under src/; the spec describes it as `get(element, key, defaultValue)`
reading and writing the `listeners` and `delegating` mappings for one element.
The registry holds those two mappings for the handle's emitter element, an
absent mapping being the default empty object. Listener references are
modelled by natural-number identities. -/
structure Registry where
  listeners : List (String × List Nat)
  delegating : List (String × DelegEntry)
  deriving DecidableEq

/-- `DomDelegatedEventHandle.removeListener` (DomDelegatedEventHandle.js,
lines 30-41), acting on the emitter's registry. The handle's fields are the
arguments: `event` is `this.event_`, `listener` is `this.listener_`, and
`selector` is `this.selector_` (`none` when no selector string was supplied,
matching the `isString(selector)` test). `Except.error ()` models the
TypeError thrown by reading `.selectors` of `undefined` when
`delegating[event]` is absent; every other path returns the updated registry:
`array.remove(arr[key] || [], listener)` removes from the bucket when the key
is present (otherwise a fresh empty array is mutated and discarded), and
`if (arr[key] && arr[key].length === 0) delete arr[key]` prunes the key when
the bucket is present and became empty (an empty array is truthy in JS, so
the guard is just presence plus zero length). -/
def removeListener (r : Registry) (event : String) (listener : Nat)
    (selector : Option String) : Except Unit Registry :=
  match selector with
  | Option.none =>
    match alookup r.listeners event with
    | Option.none => Except.ok r
    | Option.some bucket =>
      let b := arrayRemove bucket listener
      if b = [] then Except.ok { r with listeners := adelete r.listeners event }
      else Except.ok { r with listeners := aset r.listeners event b }
  | Option.some sel =>
    match alookup r.delegating event with
    | Option.none => Except.error ()
    | Option.some entry =>
      match alookup entry.selectors sel with
      | Option.none => Except.ok r
      | Option.some bucket =>
        let b := arrayRemove bucket listener
        let sels :=
          if b = [] then adelete entry.selectors sel
          else aset entry.selectors sel b
        Except.ok { r with delegating := aset r.delegating event ⟨sels⟩ }

/-- The bucket the code's `arr[key]` denotes for a handle: the direct bucket
`listeners[event]` when no selector was supplied, else the delegated bucket
`delegating[event].selectors[selector]`. -/
def bucketAt (r : Registry) (event : String) (sel : Option String) :
    Option (List Nat) :=
  match sel with
  | Option.none => alookup r.listeners event
  | Option.some s =>
    match alookup r.delegating event with
    | Option.none => none
    | Option.some entry => alookup entry.selectors s

/-- Decidable check that the handle's bucket is not a present-but-empty
sequence. -/
def noEmptyBucketAt (r : Registry) (event : String) (sel : Option String) :
    Bool :=
  match bucketAt r event sel with
  | Option.some [] => false
  | _ => true

/-- C1 counterexample: on a handle with a selector, calling `removeListener`
against a registry whose `delegating` mapping has no bucket for the event
name throws (reading `.selectors` of `undefined`), refuting the claim that
the removal never raises when the event-name bucket is absent. -/
theorem removeListener_missing_delegated_bucket_throws :
    removeListener ⟨[], []⟩ "click" 1 (Option.some ".item") =
      Except.error () := rfl

/-- C1 (amended): with no selector, `removeListener` on a missing
`listeners[event]` bucket is a no-op that raises no error and leaves the
registry unchanged; with a selector, the same holds when `delegating[event]`
exists but has no bucket for the selector; but when `delegating[event]`
itself is missing, the selector path raises a TypeError instead. -/
theorem removeListener_missing_bucket_cases :
    ∀ (r : Registry) (event : String) (listener : Nat),
      (alookup r.listeners event = none →
        removeListener r event listener Option.none = Except.ok r) ∧
      (∀ sel : String, alookup r.delegating event = none →
        removeListener r event listener (Option.some sel) = Except.error ()) ∧
      (∀ (sel : String) (entry : DelegEntry),
        alookup r.delegating event = Option.some entry →
        alookup entry.selectors sel = none →
        removeListener r event listener (Option.some sel) = Except.ok r) := by
  intro r event listener
  refine ⟨?_, ?_, ?_⟩
  · intro h
    simp [removeListener, h]
  · intro sel h
    simp [removeListener, h]
  · intro sel entry h1 h2
    simp [removeListener, h1, h2]

/-- Witness for the amended C1 theorem at concrete registries. -/
theorem removeListener_missing_bucket_cases_witness :
    removeListener ⟨[], [("keydown", ⟨[]⟩)]⟩ "click" 1 Option.none =
      Except.ok ⟨[], [("keydown", ⟨[]⟩)]⟩ ∧
    removeListener ⟨[], [("keydown", ⟨[]⟩)]⟩ "click" 1 (Option.some ".item") =
      Except.error () ∧
    removeListener ⟨[], [("keydown", ⟨[]⟩)]⟩ "keydown" 1 (Option.some ".item") =
      Except.ok ⟨[], [("keydown", ⟨[]⟩)]⟩ :=
  ⟨(removeListener_missing_bucket_cases ⟨[], [("keydown", ⟨[]⟩)]⟩ "click" 1).1
      (by decide),
   (removeListener_missing_bucket_cases ⟨[], [("keydown", ⟨[]⟩)]⟩ "click" 1).2.1
      ".item" (by decide),
   (removeListener_missing_bucket_cases ⟨[], [("keydown", ⟨[]⟩)]⟩ "keydown" 1).2.2
      ".item" ⟨[]⟩ (by decide) (by decide)⟩

/-- C2: for a registry with direct bucket `listeners["click"] = [l1, l2]`,
`removeListener` on a selector-less handle for `l1` leaves
`listeners["click"] = [l2]`, every other direct bucket untouched and the
`delegating` mapping untouched. -/
theorem removeListener_direct_click :
    ∀ (r : Registry) (l1 l2 : Nat) (r' : Registry),
      alookup r.listeners "click" = Option.some [l1, l2] →
      removeListener r "click" l1 Option.none = Except.ok r' →
      alookup r'.listeners "click" = Option.some [l2] ∧
      (∀ k : String, k ≠ "click" →
        alookup r'.listeners k = alookup r.listeners k) ∧
      r'.delegating = r.delegating := by
  intro r l1 l2 r' h1 h2
  simp [removeListener, h1, arrayRemove] at h2
  subst h2
  exact ⟨alookup_aset_self r.listeners "click" [l2],
    fun k hk => alookup_aset_ne r.listeners "click" k [l2] hk, rfl⟩

/-- Witness for C2 at a concrete registry. -/
theorem removeListener_direct_click_witness :
    alookup (Registry.mk [("click", [2])] []).listeners "click" =
      Option.some [2] ∧
    (Registry.mk [("click", [2])] []).delegating =
      (Registry.mk [("click", [1, 2])] []).delegating :=
  ⟨(removeListener_direct_click ⟨[("click", [1, 2])], []⟩ 1 2
      ⟨[("click", [2])], []⟩ (by decide) rfl).1,
   (removeListener_direct_click ⟨[("click", [1, 2])], []⟩ 1 2
      ⟨[("click", [2])], []⟩ (by decide) rfl).2.2⟩

/-- C3: after any successful `removeListener` call, the bucket the handle
operated on is never left present but empty: a bucket that became empty is
deleted from its containing mapping. -/
theorem removeListener_prunes_empty_bucket :
    ∀ (r : Registry) (event : String) (listener : Nat) (sel : Option String)
      (r' : Registry),
      removeListener r event listener sel = Except.ok r' →
      noEmptyBucketAt r' event sel = true := by
  intro r event listener sel r' h
  match sel with
  | Option.none =>
    cases hl : alookup r.listeners event with
    | none =>
      simp [removeListener, hl] at h
      subst h
      simp [noEmptyBucketAt, bucketAt, hl]
    | some bucket =>
      by_cases hb : arrayRemove bucket listener = []
      · simp [removeListener, hl, hb] at h
        subst h
        simp [noEmptyBucketAt, bucketAt, alookup_adelete_self]
      · simp [removeListener, hl, hb] at h
        subst h
        cases hbb : arrayRemove bucket listener with
        | nil => exact absurd hbb hb
        | cons x xs =>
          simp [noEmptyBucketAt, bucketAt, alookup_aset_self, hbb]
  | Option.some s =>
    cases hd : alookup r.delegating event with
    | none => simp [removeListener, hd] at h
    | some entry =>
      cases hs : alookup entry.selectors s with
      | none =>
        simp [removeListener, hd, hs] at h
        subst h
        simp [noEmptyBucketAt, bucketAt, hd, hs]
      | some bucket =>
        by_cases hb : arrayRemove bucket listener = []
        · simp [removeListener, hd, hs, hb] at h
          subst h
          simp [noEmptyBucketAt, bucketAt, alookup_aset_self,
            alookup_adelete_self]
        · simp [removeListener, hd, hs, hb] at h
          subst h
          cases hbb : arrayRemove bucket listener with
          | nil => exact absurd hbb hb
          | cons x xs =>
            simp [noEmptyBucketAt, bucketAt, alookup_aset_self, hbb]

/-- Witness for C3: removing the only listener of
`delegating["click"].selectors[".item"]` leaves no empty bucket behind
(the `".item"` key is deleted from `selectors`). -/
theorem removeListener_prunes_empty_bucket_witness :
    noEmptyBucketAt ⟨[], [("click", ⟨[]⟩)]⟩ "click" (Option.some ".item") =
      true :=
  removeListener_prunes_empty_bucket ⟨[], [("click", ⟨[(".item", [1])]⟩)]⟩
    "click" 1 (Option.some ".item") ⟨[], [("click", ⟨[]⟩)]⟩ rfl

/-- C9: a successful `removeListener` on a selector handle never touches the
direct `listeners` mapping, never removes the `delegating[event]` entry
itself (it is still present afterwards, even when its `selectors` mapping
became empty), leaves every other event's delegating entry unchanged, and
within `selectors` changes at most the handle's own selector key. -/
theorem removeListener_selector_frame :
    ∀ (r : Registry) (event : String) (listener : Nat) (sel : String)
      (r' : Registry),
      removeListener r event listener (Option.some sel) = Except.ok r' →
      r'.listeners = r.listeners ∧
      (∀ e : String, e ≠ event →
        alookup r'.delegating e = alookup r.delegating e) ∧
      ∃ entry entry' : DelegEntry,
        alookup r.delegating event = Option.some entry ∧
        alookup r'.delegating event = Option.some entry' ∧
        (∀ s : String, s ≠ sel →
          alookup entry'.selectors s = alookup entry.selectors s) := by
  intro r event listener sel r' h
  cases hd : alookup r.delegating event with
  | none => simp [removeListener, hd] at h
  | some entry =>
    cases hs : alookup entry.selectors sel with
    | none =>
      simp [removeListener, hd, hs] at h
      subst h
      exact ⟨rfl, fun e he => rfl, entry, entry, rfl, hd, fun s hs' => rfl⟩
    | some bucket =>
      simp [removeListener, hd, hs] at h
      subst h
      refine ⟨rfl, fun e he => alookup_aset_ne r.delegating event e _ he,
        entry, _, rfl, alookup_aset_self r.delegating event _, ?frame⟩
      intro s hs'
      by_cases hb : arrayRemove bucket listener = []
      · simp [hb, alookup_adelete_ne entry.selectors sel s hs']
      · simp [hb, alookup_aset_ne entry.selectors sel s _ hs']

/-- Witness for C9 at a concrete registry with two delegated selectors. -/
theorem removeListener_selector_frame_witness :
    (Registry.mk [("focus", [9])] [("click", ⟨[(".b", [2])]⟩)]).listeners =
      (Registry.mk [("focus", [9])]
        [("click", ⟨[(".a", [1]), (".b", [2])]⟩)]).listeners ∧
    alookup (Registry.mk [("focus", [9])]
        [("click", ⟨[(".b", [2])]⟩)]).delegating "focus" =
      alookup (Registry.mk [("focus", [9])]
        [("click", ⟨[(".a", [1]), (".b", [2])]⟩)]).delegating "focus" :=
  ⟨(removeListener_selector_frame
      ⟨[("focus", [9])], [("click", ⟨[(".a", [1]), (".b", [2])]⟩)]⟩ "click" 1
      ".a" ⟨[("focus", [9])], [("click", ⟨[(".b", [2])]⟩)]⟩ rfl).1,
   (removeListener_selector_frame
      ⟨[("focus", [9])], [("click", ⟨[(".a", [1]), (".b", [2])]⟩)]⟩ "click" 1
      ".a" ⟨[("focus", [9])], [("click", ⟨[(".b", [2])]⟩)]⟩ rfl).2.1
      "focus" (by decide)⟩

/-- The mutable state behind `core.getUid` (core.js lines 14-21, 163-176):
the module-level counter `core.uniqueIdCounter_` plus the hidden
`core.UID_PROPERTY` stamps, one per object, modelled as a mapping from
object identity (a natural number) to the stamped uid. -/
structure UidState where
  counter : Nat
  stamps : List (Nat × Nat)
  deriving DecidableEq

/-- The fresh counter state: `core.uniqueIdCounter_ = 1`, no object stamped. -/
def freshUidState : UidState := ⟨1, []⟩

/-- The argument domain of `core.getUid`: no argument (or `undefined`), one of
the falsy primitive values, or an object reference identified by a natural
number. Only the object is truthy for the `if (opt_object)` test. -/
inductive GetUidArg : Type where
  | noArg : GetUidArg
  | nullArg : GetUidArg
  | falseArg : GetUidArg
  | zeroArg : GetUidArg
  | emptyStrArg : GetUidArg
  | objArg : Nat → GetUidArg
  deriving DecidableEq

/-- `core.getUid` (core.js lines 170-176). A truthy argument (an object)
returns its stamp when the stamped value is truthy, otherwise stamps the
object with `uniqueIdCounter_++` (post-increment: the old counter value is
returned). Any falsy argument, or no argument, falls through to
`return core.uniqueIdCounter_++`. Returns the uid and the updated state. -/
def getUid (s : UidState) (a : GetUidArg) : Nat × UidState :=
  match a with
  | GetUidArg.objArg id =>
    match alookup s.stamps id with
    | Option.some u =>
      if u = 0 then (s.counter, ⟨s.counter + 1, aset s.stamps id s.counter⟩)
      else (u, s)
    | Option.none => (s.counter, ⟨s.counter + 1, aset s.stamps id s.counter⟩)
  | _ => (s.counter, ⟨s.counter + 1, s.stamps⟩)

/-- Runs a sequence of `getUid` calls, threading the state. -/
def runUids (s : UidState) : List GetUidArg → UidState
  | [] => s
  | a :: rest => runUids (getUid s a).2 rest

/-- Invariant of every reachable counter state: the counter is at least 1 and
every stamped uid is at least 1 (hence truthy in the `||` test). -/
def goodUid (s : UidState) : Prop :=
  1 ≤ s.counter ∧ ∀ id u : Nat, alookup s.stamps id = Option.some u → 1 ≤ u

/-- A call that takes the allocating path of `getUid`: anything but an
already-stamped object. -/
def allocArg (s : UidState) : GetUidArg → Prop
  | GetUidArg.objArg id => alookup s.stamps id = Option.none
  | _ => True

theorem counter_le_getUid (s : UidState) (a : GetUidArg) :
    s.counter ≤ (getUid s a).2.counter := by
  match a with
  | GetUidArg.noArg | GetUidArg.nullArg | GetUidArg.falseArg
  | GetUidArg.zeroArg | GetUidArg.emptyStrArg =>
    simp [getUid]
  | GetUidArg.objArg id =>
    cases hl : alookup s.stamps id with
    | none => simp [getUid, hl]
    | some u =>
      by_cases hu : u = 0
      · simp [getUid, hl, hu]
      · simp [getUid, hl, hu]

theorem counter_le_runUids (s : UidState) (l : List GetUidArg) :
    s.counter ≤ (runUids s l).counter := by
  induction l generalizing s with
  | nil => exact Nat.le_refl _
  | cons a rest ih =>
    exact Nat.le_trans (counter_le_getUid s a) (ih (getUid s a).2)

theorem goodUid_getUid (s : UidState) (a : GetUidArg) (hg : goodUid s) :
    goodUid (getUid s a).2 := by
  obtain ⟨hc, hs⟩ := hg
  match a with
  | GetUidArg.noArg | GetUidArg.nullArg | GetUidArg.falseArg
  | GetUidArg.zeroArg | GetUidArg.emptyStrArg =>
    exact ⟨Nat.le_trans hc (Nat.le_succ _), hs⟩
  | GetUidArg.objArg id =>
    cases hl : alookup s.stamps id with
    | none =>
      refine ⟨?_, ?_⟩
      · simp [getUid, hl]
      · intro id' u' hu'
        simp [getUid, hl] at hu'
        by_cases hid : id' = id
        · subst hid
          rw [alookup_aset_self] at hu'
          have h2 := Option.some.inj hu'
          omega
        · rw [alookup_aset_ne s.stamps id id' s.counter hid] at hu'
          exact hs id' u' hu'
    | some u =>
      have hu1 : 1 ≤ u := hs id u hl
      have hu0 : ¬ (u = 0) := by omega
      simp only [getUid, hl, if_neg hu0]
      exact ⟨hc, hs⟩

theorem goodUid_runUids (s : UidState) (l : List GetUidArg) (hg : goodUid s) :
    goodUid (runUids s l) := by
  induction l generalizing s with
  | nil => exact hg
  | cons a rest ih => exact ih (getUid s a).2 (goodUid_getUid s a hg)

theorem goodUid_fresh : goodUid freshUidState := by
  refine ⟨Nat.le_refl 1, ?_⟩
  intro id u h
  simp [freshUidState, alookup] at h

theorem stamp_persist_getUid (s : UidState) (a : GetUidArg) (id u : Nat)
    (hg : goodUid s) (h : alookup s.stamps id = Option.some u) :
    alookup (getUid s a).2.stamps id = Option.some u := by
  match a with
  | GetUidArg.noArg | GetUidArg.nullArg | GetUidArg.falseArg
  | GetUidArg.zeroArg | GetUidArg.emptyStrArg =>
    simpa [getUid] using h
  | GetUidArg.objArg id' =>
    by_cases hid : id' = id
    · subst hid
      have hu1 : 1 ≤ u := hg.2 id' u h
      have hu0 : ¬ (u = 0) := by omega
      simp [getUid, h, if_neg hu0]
    · cases hl : alookup s.stamps id' with
      | none =>
        simp only [getUid, hl]
        rw [alookup_aset_ne s.stamps id' id s.counter (fun hc => hid hc.symm)]
        exact h
      | some u' =>
        have hu1 : 1 ≤ u' := hg.2 id' u' hl
        have hu0 : ¬ (u' = 0) := by omega
        simp only [getUid, hl, if_neg hu0]
        exact h

theorem stamp_persist_runUids (s : UidState) (l : List GetUidArg) (id u : Nat)
    (hg : goodUid s) (h : alookup s.stamps id = Option.some u) :
    alookup (runUids s l).stamps id = Option.some u := by
  induction l generalizing s with
  | nil => exact h
  | cons a rest ih =>
    exact ih (getUid s a).2 (goodUid_getUid s a hg)
      (stamp_persist_getUid s a id u hg h)

theorem getUid_alloc (s : UidState) (a : GetUidArg) (ha : allocArg s a) :
    (getUid s a).1 = s.counter ∧ (getUid s a).2.counter = s.counter + 1 := by
  match a with
  | GetUidArg.noArg | GetUidArg.nullArg | GetUidArg.falseArg
  | GetUidArg.zeroArg | GetUidArg.emptyStrArg =>
    exact ⟨rfl, rfl⟩
  | GetUidArg.objArg id =>
    have hl : alookup s.stamps id = Option.none := ha
    simp [getUid, hl]

/-- C4: starting from the fresh counter state, the first `getUid` call
returns 1 whatever its argument; calling `getUid` on an object reference in
any reachable state yields a uid that every later call with the same object
returns again, whatever calls happen in between; and any two
counter-allocating calls (a fresh object, or no argument) made one after the
other, with arbitrary calls in between, return strictly increasing (hence
pairwise distinct) integers. -/
theorem getUid_spec :
    (∀ a : GetUidArg, (getUid freshUidState a).1 = 1) ∧
    (∀ (l : List GetUidArg) (id u : Nat) (s₁ : UidState),
      getUid (runUids freshUidState l) (GetUidArg.objArg id) = (u, s₁) →
      ∀ l' : List GetUidArg,
        (getUid (runUids s₁ l') (GetUidArg.objArg id)).1 = u) ∧
    (∀ (s : UidState) (a₁ : GetUidArg) (u₁ : Nat) (s₁ : UidState)
      (l : List GetUidArg) (a₂ : GetUidArg),
      allocArg s a₁ → getUid s a₁ = (u₁, s₁) →
      allocArg (runUids s₁ l) a₂ →
      u₁ < (getUid (runUids s₁ l) a₂).1) := by
  refine ⟨?_, ?_, ?_⟩
  · intro a
    match a with
    | GetUidArg.noArg | GetUidArg.nullArg | GetUidArg.falseArg
    | GetUidArg.zeroArg | GetUidArg.emptyStrArg => rfl
    | GetUidArg.objArg id => rfl
  · intro l id u s₁ h l'
    have hg : goodUid (runUids freshUidState l) :=
      goodUid_runUids freshUidState l goodUid_fresh
    have hstamp : alookup s₁.stamps id = Option.some u := by
      cases hl : alookup (runUids freshUidState l).stamps id with
      | none =>
        simp only [getUid, hl] at h
        have hu : u = (runUids freshUidState l).counter := by
          exact (Prod.mk.injEq _ _ _ _).mp h |>.1.symm
        have hs₁ : s₁ = ⟨(runUids freshUidState l).counter + 1,
            aset (runUids freshUidState l).stamps id
              (runUids freshUidState l).counter⟩ := by
          exact (Prod.mk.injEq _ _ _ _).mp h |>.2.symm
        rw [hs₁, hu]
        exact alookup_aset_self _ id _
      | some u' =>
        have hu1 : 1 ≤ u' := hg.2 id u' hl
        have hu0 : ¬ (u' = 0) := by omega
        simp only [getUid, hl, if_neg hu0] at h
        obtain ⟨hu, hs₁⟩ := (Prod.mk.injEq _ _ _ _).mp h
        rw [← hs₁, ← hu]
        exact hl
    have hg₁ : goodUid s₁ := by
      have : goodUid (getUid (runUids freshUidState l)
          (GetUidArg.objArg id)).2 :=
        goodUid_getUid _ _ hg
      rwa [h] at this
    have hper : alookup (runUids s₁ l').stamps id = Option.some u :=
      stamp_persist_runUids s₁ l' id u hg₁ hstamp
    have hgl : goodUid (runUids s₁ l') := goodUid_runUids s₁ l' hg₁
    have hu1 : 1 ≤ u := hgl.2 id u hper
    have hu0 : ¬ (u = 0) := by omega
    simp [getUid, hper, if_neg hu0]
  · intro s a₁ u₁ s₁ l a₂ ha₁ h ha₂
    obtain ⟨hv, hc⟩ := getUid_alloc s a₁ ha₁
    have hu₁ : u₁ = s.counter := by rw [← hv, h]
    have hs₁ : s₁.counter = s.counter + 1 := by rw [← hc, h]
    have hrun : s₁.counter ≤ (runUids s₁ l).counter := counter_le_runUids s₁ l
    have hv₂ : (getUid (runUids s₁ l) a₂).1 = (runUids s₁ l).counter :=
      (getUid_alloc (runUids s₁ l) a₂ ha₂).1
    omega

/-- Witness for C4: the first call (no argument) returns 1; stamping object 7
then asking again returns 1 both times; an allocating call after a no-arg
call returns a strictly larger uid. -/
theorem getUid_spec_witness :
    (getUid freshUidState GetUidArg.noArg).1 = 1 ∧
    (getUid (runUids ⟨2, [(7, 1)]⟩ []) (GetUidArg.objArg 7)).1 = 1 ∧
    1 < (getUid (runUids ⟨2, []⟩ []) (GetUidArg.objArg 3)).1 :=
  ⟨getUid_spec.1 GetUidArg.noArg,
   getUid_spec.2.1 [GetUidArg.objArg 7] 7 1 ⟨2, [(7, 1)]⟩ (by decide) [],
   getUid_spec.2.2 freshUidState GetUidArg.noArg 1 ⟨2, []⟩ []
     (GetUidArg.objArg 3) trivial (by decide) rfl⟩

/-- Decidable classification of the falsy primitive arguments of `getUid`
(null, false, 0, the empty string). -/
def falsyValueArg : GetUidArg → Bool
  | GetUidArg.nullArg => true
  | GetUidArg.falseArg => true
  | GetUidArg.zeroArg => true
  | GetUidArg.emptyStrArg => true
  | _ => false

/-- C10: `getUid` on any falsy argument behaves exactly like `getUid` with no
argument: it returns the current counter, increments it, stamps nothing, and
an immediate second call with the same falsy value returns the next, distinct
integer. -/
theorem getUid_falsy_arg :
    ∀ (s : UidState) (a : GetUidArg), falsyValueArg a = true →
      getUid s a = getUid s GetUidArg.noArg ∧
      (getUid s a).1 = s.counter ∧
      (getUid s a).2.stamps = s.stamps ∧
      (getUid ((getUid s a).2) a).1 = s.counter + 1 ∧
      (getUid s a).1 ≠ (getUid ((getUid s a).2) a).1 := by
  intro s a ha
  match a with
  | GetUidArg.nullArg | GetUidArg.falseArg
  | GetUidArg.zeroArg | GetUidArg.emptyStrArg =>
    refine ⟨rfl, rfl, rfl, rfl, ?_⟩
    simp [getUid]
  | GetUidArg.noArg | GetUidArg.objArg _ => simp [falsyValueArg] at ha

/-- Witness for C10 at the fresh state with the falsy argument 0. -/
theorem getUid_falsy_arg_witness :
    getUid freshUidState GetUidArg.zeroArg =
      getUid freshUidState GetUidArg.noArg ∧
    (getUid freshUidState GetUidArg.zeroArg).1 = 1 ∧
    (getUid ((getUid freshUidState GetUidArg.zeroArg).2)
      GetUidArg.zeroArg).1 = 2 :=
  ⟨(getUid_falsy_arg freshUidState GetUidArg.zeroArg rfl).1,
   (getUid_falsy_arg freshUidState GetUidArg.zeroArg rfl).2.1,
   (getUid_falsy_arg freshUidState GetUidArg.zeroArg rfl).2.2.2.1⟩

/-- The function argument of `core.bind` and `core.rbind`: an actual
function value (modelled by its observable behaviour: a map from the
receiver and the full argument list to the result), one of the falsy JS
primitives (`!fn` is true exactly for these), or a truthy value that is not
callable: a nonzero number, a nonempty string, an array, a plain object and
so on, that is truthy, carries no own `call`/`bind` properties, and cannot
be invoked. -/
inductive FnArg (γ α β : Type) : Type where
  | func : (γ → List α → β) → FnArg γ α β
  | nullV : FnArg γ α β
  | undefinedV : FnArg γ α β
  | falseV : FnArg γ α β
  | zeroV : FnArg γ α β
  | emptyStrV : FnArg γ α β
  | nanV : FnArg γ α β
  | truthyNonFunc : FnArg γ α β

/-- JS truthiness of the `fn` argument: the negation of the `!fn` guard.
Functions and truthy non-function values both pass the guard. -/
def fnTruthy {γ α β : Type} : FnArg γ α β → Bool
  | FnArg.func _ => true
  | FnArg.truthyNonFunc => true
  | _ => false

/-- Whether the `fn` argument is an actual function value. -/
def isFuncArg {γ α β : Type} : FnArg γ α β → Bool
  | FnArg.func _ => true
  | _ => false

/-- `core.bind` (core.js lines 53-63) with its dispatch targets
`core.bindWithNative_` (lines 100-106) and `core.bindWithArgs_` /
`core.bindWithoutArgs_` (lines 77-85, 115-119). A falsy `fn` throws
`new Error()` at the guard. The module is ES6 code, so
`Function.prototype.bind` exists in every environment that can load it and
the dispatch always takes `bindWithNative_`. For a function that branch
behaves as the reimplementation does: it returns a callable that invokes
`fn` with receiver `context` and the partial arguments prepended to the
call-time arguments (the no-partial-arguments case is the `args = []`
instance). For a truthy non-function, `fn.call.apply(fn.bind, arguments)`
reads `fn.call`, which is `undefined` on a non-function, and throws a
TypeError at bind time even though the `!fn` guard passed. The returned
callable itself returns in `Except` so that a call-time throw is
representable. -/
def bind {γ α β : Type} (fn : FnArg γ α β) (context : γ) (args : List α) :
    Except Unit (List α → Except Unit β) :=
  match fn with
  | FnArg.func f =>
    Except.ok (fun newArgs => Except.ok (f context (args ++ newArgs)))
  | FnArg.truthyNonFunc => Except.error ()
  | _ => Except.error ()

/-- `core.rbind` (core.js lines 356-373): a falsy `fn` throws `new Error()`
at the guard; otherwise a closure is returned without `fn` being inspected
any further. For a function the closure invokes `fn` with receiver
`context` and the partial arguments appended after the call-time arguments
(the no-partial-arguments branch is the `args = []` instance); for a truthy
non-function the closure is still returned without raising, and only
invoking it throws (`fn.apply` on a non-callable). -/
def rbind {γ α β : Type} (fn : FnArg γ α β) (context : γ) (args : List α) :
    Except Unit (List α → Except Unit β) :=
  match fn with
  | FnArg.func f =>
    Except.ok (fun newArgs => Except.ok (f context (newArgs ++ args)))
  | FnArg.truthyNonFunc => Except.ok (fun _ => Except.error ())
  | _ => Except.error ()

/-- Calling the result of `bind`/`rbind`: when the binding threw, there is no
callable to invoke; otherwise the callable runs on the call-time arguments
and may itself throw. -/
def callBound {α β : Type} (r : Except Unit (List α → Except Unit β))
    (callArgs : List α) : Except Unit β :=
  match r with
  | Except.ok g => g callArgs
  | Except.error e => Except.error e

/-- Whether a `bind`/`rbind` call returned a callable rather than throwing. -/
def returnsOk {ε α : Type} : Except ε α → Bool
  | Except.ok _ => true
  | Except.error _ => false

/-- C5: for every function `f`, receiver `ctx` and values `a`, `b`, the
callable `bind(f, ctx, a)` invoked on `b` runs `f` with receiver `ctx` and
argument list `[a, b]` (partial arguments prepended), and `rbind(f, ctx, a)`
invoked on `b` runs `f` with receiver `ctx` and argument list `[b, a]`
(partial arguments appended). -/
theorem bind_rbind_argument_order {γ α β : Type} (f : γ → List α → β)
    (ctx : γ) (a b : α) :
    callBound (bind (FnArg.func f) ctx [a]) [b] = Except.ok (f ctx [a, b]) ∧
    callBound (rbind (FnArg.func f) ctx [a]) [b] = Except.ok (f ctx [b, a]) :=
  ⟨rfl, rfl⟩

/-- C6 counterexample: a truthy non-function argument passes the `!fn` guard
yet `core.bind` still raises — the native dispatch reads `fn.call` of a
non-function and throws a TypeError at bind time — refuting the claim that a
truthy function argument always yields a callable without raising. -/
theorem bind_truthy_non_function_throws :
    fnTruthy (FnArg.truthyNonFunc : FnArg Unit Nat Nat) = true ∧
    returnsOk (bind (FnArg.truthyNonFunc : FnArg Unit Nat Nat) () []) =
      false :=
  ⟨rfl, rfl⟩

/-- C6 (amended): `rbind` raises exactly when its function argument is falsy
and returns a callable without raising for every truthy argument; `bind`
returns a callable without raising exactly when its function argument is an
actual function, raising both on falsy arguments (the guard's `Error`) and
on truthy non-function arguments (the native dispatch's TypeError at bind
time). -/
theorem bind_rbind_throw_conditions {γ α β : Type} (fn : FnArg γ α β)
    (ctx : γ) (args : List α) :
    returnsOk (rbind fn ctx args) = fnTruthy fn ∧
    returnsOk (bind fn ctx args) = isFuncArg fn := by
  cases fn <;> exact ⟨rfl, rfl⟩

/-- JS dynamic values, as far as the core.js predicates can observe them:
the `typeof` tag, identity with `undefined`/`null`, truthiness, and property
lookup (only `nodeType` is ever read). Numbers are modelled as integers. -/
inductive JSVal : Type where
  | undefined : JSVal
  | null : JSVal
  | boolean : Bool → JSVal
  | number : Int → JSVal
  | string : String → JSVal
  | func : JSVal
  | array : List JSVal → JSVal
  | object : List (String × JSVal) → JSVal

/-- The JS `typeof` operator on the modelled values (`typeof null` is
`"object"`, arrays are objects). -/
def typeofStr : JSVal → String
  | JSVal.undefined => "undefined"
  | JSVal.null => "object"
  | JSVal.boolean _ => "boolean"
  | JSVal.number _ => "number"
  | JSVal.string _ => "string"
  | JSVal.func => "function"
  | JSVal.array _ => "object"
  | JSVal.object _ => "object"

/-- JS truthiness: `undefined`, `null`, `false`, `0` and `""` are falsy,
everything else modelled here is truthy. -/
def truthyVal : JSVal → Bool
  | JSVal.undefined => false
  | JSVal.null => false
  | JSVal.boolean b => b
  | JSVal.number n => n != 0
  | JSVal.string s => s != ""
  | JSVal.func => true
  | JSVal.array _ => true
  | JSVal.object _ => true

/-- The JS `&&` operator: returns the left operand when it is falsy,
otherwise the right operand (so the result need not be a boolean). -/
def jsAnd (a b : JSVal) : JSVal :=
  if truthyVal a then b else a

/-- JS property read `v[k]` as observed by `isElement`: a missing key, or a
non-object receiver, reads as `undefined`. (For `null`/`undefined` receivers
JS would throw, but `isElement` short-circuits before reading, so the value
produced here is discarded in exactly those cases.) -/
def propLookup (v : JSVal) (k : String) : JSVal :=
  match v with
  | JSVal.object fields => (alookup fields k).getD JSVal.undefined
  | _ => JSVal.undefined

/-- The strict comparison `val.nodeType === 1`: true exactly when the
`nodeType` property is the number 1 (no coercion: `true === 1` and
`"1" === 1` are false). -/
def nodeTypeEqOne (v : JSVal) : Bool :=
  match propLookup v "nodeType" with
  | JSVal.number n => n == 1
  | _ => false

/-- `core.isBoolean` (core.js lines 239-241): `typeof val === 'boolean'`. -/
def isBoolean (v : JSVal) : Bool :=
  typeofStr v == "boolean"

/-- `core.isDef` (core.js): `val !== undefined`. -/
def isDef (v : JSVal) : Bool :=
  match v with
  | JSVal.undefined => false
  | _ => true

/-- `core.isNull` (core.js): `val === null`. -/
def isNull (v : JSVal) : Bool :=
  match v with
  | JSVal.null => true
  | _ => false

/-- `core.isDefAndNotNull` (core.js): `core.isDef(val) && !core.isNull(val)`. -/
def isDefAndNotNull (v : JSVal) : Bool :=
  isDef v && !isNull v

/-- `core.isFunction` (core.js): `typeof val === 'function'`. -/
def isFunction (v : JSVal) : Bool :=
  typeofStr v == "function"

/-- `core.isObject` (core.js): `type === 'object' && val !== null ||
type === 'function'`. -/
def isObject (v : JSVal) : Bool :=
  (typeofStr v == "object" && !isNull v) || typeofStr v == "function"

/-- `core.isString` (core.js): `typeof val === 'string'`. -/
def isString (v : JSVal) : Bool :=
  typeofStr v == "string"

/-- `core.isElement` (core.js lines 266-268):
`return val && typeof val === 'object' && val.nodeType === 1;`. The `&&`
chain returns a JS value, not necessarily a boolean: for a falsy `val` the
operand `val` itself is returned. -/
def isElement (v : JSVal) : JSVal :=
  jsAnd (jsAnd v (JSVal.boolean (typeofStr v == "object")))
    (JSVal.boolean (nodeTypeEqOne v))

/-- C7 (code bug evidence): `isElement(0)` evaluates to the number 0 itself,
which is not a boolean (the module's own `isBoolean` classifies it as
non-boolean), contradicting the claim and the function's documented Boolean
return type; on a truthy object with `nodeType === 1` it does return the
boolean true, and on a truthy non-element the boolean false. -/
theorem isElement_falsy_returns_input :
    isElement (JSVal.number 0) = JSVal.number 0 ∧
    isBoolean (isElement (JSVal.number 0)) = false ∧
    isElement (JSVal.object [("nodeType", JSVal.number 1)]) =
      JSVal.boolean true ∧
    isElement (JSVal.string "x") = JSVal.boolean false :=
  ⟨rfl, rfl, rfl, rfl⟩

/-- A constructor function as `collectSuperClassesProperty` and
`mergeSuperClassesProperty` see it: its own static properties (which the
merge mutates to add the cache entry) and the static properties of each
ancestor along the `superClass_.constructor` chain, in order. -/
structure MergeCtor where
  ownProps : List (String × JSVal)
  superProps : List (List (String × JSVal))

/-- JS static-property read `constructor[name]`: `undefined` when absent. -/
def getProp (props : List (String × JSVal)) (k : String) : JSVal :=
  (alookup props k).getD JSVal.undefined

/-- `core.collectSuperClassesProperty` (core.js lines 152-159): starts with
the constructor's own value and walks `superClass_.constructor` pushing each
ancestor's value (absent values collected as `undefined`). -/
def collectSuperClassesProperty (c : MergeCtor) (propertyName : String) :
    List JSVal :=
  getProp c.ownProps propertyName ::
    c.superProps.map (fun ps => getProp ps propertyName)

/-- `core.mergeSuperClassesProperty` (core.js lines 320-332): computes the
cache key `propertyName + '_MERGED'`; if `constructor[mergedName]` is truthy
it is returned unchanged (this is a JS truthiness test, not a presence
test); otherwise the chain is collected, merged by `opt_mergeFn` when one is
given (the collected array itself otherwise), stored under the cache key and
returned. Returns the merged value and the updated constructor. -/
def mergeSuperClassesProperty (c : MergeCtor) (propertyName : String)
    (mergeFn : Option (List JSVal → JSVal)) : JSVal × MergeCtor :=
  let mergedName := propertyName ++ "_MERGED"
  if truthyVal (getProp c.ownProps mergedName) then
    (getProp c.ownProps mergedName, c)
  else
    let merged :=
      match mergeFn with
      | Option.some f => f (collectSuperClassesProperty c propertyName)
      | Option.none => JSVal.array (collectSuperClassesProperty c propertyName)
    (merged, { c with ownProps := aset c.ownProps mergedName merged })

/-- C8 counterexample: with a merge function returning the falsy value 0,
the first call stores 0 under the cache key, but the second call on the very
same constructor and property does not return the stored value: it collects
and merges again, invoking the second call's merge function (the result is
that function's value 7, not the stored 0). -/
theorem mergeSuperClassesProperty_falsy_recomputes :
    getProp (mergeSuperClassesProperty ⟨[], []⟩ "p"
        (Option.some (fun _ => JSVal.number 0))).2.ownProps "p_MERGED" =
      JSVal.number 0 ∧
    (mergeSuperClassesProperty
        (mergeSuperClassesProperty ⟨[], []⟩ "p"
          (Option.some (fun _ => JSVal.number 0))).2 "p"
        (Option.some (fun _ => JSVal.number 7))).1 = JSVal.number 7 :=
  ⟨rfl, rfl⟩

/-- C8 (amended): `mergeSuperClassesProperty` stores the merged value under
the `propertyName + '_MERGED'` cache key whenever the cached slot was not
truthy, and every subsequent call, with any merge function, returns the
stored value with the constructor unchanged provided the stored merged value
is truthy, which is always the case when no merge function is supplied (the
collected array is truthy). -/
theorem mergeSuperClassesProperty_memoizes :
    ∀ (c : MergeCtor) (name : String) (fn : Option (List JSVal → JSVal))
      (v : JSVal) (c' : MergeCtor),
      mergeSuperClassesProperty c name fn = (v, c') →
      (truthyVal (getProp c.ownProps (name ++ "_MERGED")) = false →
        getProp c'.ownProps (name ++ "_MERGED") = v) ∧
      (fn = Option.none → truthyVal v = true) ∧
      (truthyVal v = true →
        ∀ fn₂ : Option (List JSVal → JSVal),
          mergeSuperClassesProperty c' name fn₂ = (v, c')) := by
  intro c name fn v c' h
  by_cases ht : truthyVal (getProp c.ownProps (name ++ "_MERGED")) = true
  · simp only [mergeSuperClassesProperty, if_pos ht] at h
    obtain ⟨hv, hc⟩ := (Prod.mk.injEq _ _ _ _).mp h
    refine ⟨fun hf => ?_, fun _ => ?_, fun _ fn₂ => ?_⟩
    · rw [ht] at hf
      exact absurd hf (by decide)
    · rw [← hv]
      exact ht
    · rw [← hc]
      simp only [mergeSuperClassesProperty, if_pos ht]
      exact (Prod.mk.injEq _ _ _ _).mpr ⟨hv, rfl⟩
  · have hf : truthyVal (getProp c.ownProps (name ++ "_MERGED")) = false := by
      revert ht
      cases truthyVal (getProp c.ownProps (name ++ "_MERGED")) <;> simp
    simp only [mergeSuperClassesProperty, hf, Bool.false_eq_true,
      if_false] at h
    obtain ⟨hv, hc⟩ := (Prod.mk.injEq _ _ _ _).mp h
    have hstore : getProp c'.ownProps (name ++ "_MERGED") = v := by
      rw [← hc, ← hv]
      simp [getProp, alookup_aset_self]
    refine ⟨fun _ => hstore, fun hnone => ?_, fun htv fn₂ => ?_⟩
    · subst hnone
      rw [← hv]
      rfl
    · simp only [mergeSuperClassesProperty, hstore, htv, if_true]

/-- Witness for the amended C8 theorem: merging property `"p"` with no merge
function on a constructor carrying `p = 3` stores the collected array, and a
repeat call returns it with the constructor unchanged. -/
theorem mergeSuperClassesProperty_memoizes_witness :
    mergeSuperClassesProperty
        ⟨[("p_MERGED", JSVal.array [JSVal.number 3]), ("p", JSVal.number 3)],
          []⟩ "p" Option.none =
      (JSVal.array [JSVal.number 3],
        ⟨[("p_MERGED", JSVal.array [JSVal.number 3]), ("p", JSVal.number 3)],
          []⟩) :=
  (mergeSuperClassesProperty_memoizes ⟨[("p", JSVal.number 3)], []⟩ "p"
      Option.none (JSVal.array [JSVal.number 3])
      ⟨[("p_MERGED", JSVal.array [JSVal.number 3]), ("p", JSVal.number 3)],
        []⟩ rfl).2.2 rfl Option.none

end Metal
